import Mathlib

/-!
# Shallow embedding of the relay-pagination-directive core

This file embeds the cursor-pagination core of the repository:

* `src/helpers.js` — the cursor codec (`encodeCursor`, `decodeCursor`) and the
  array-to-connection windowing function `connectionFromArray`;
* `src/connectionDirective.js` — the schema transformer's type-synthesis phase
  and the wrapping resolver installed on tagged fields.

JavaScript values that flow through the windowing engine are modelled by
`JVal` (undefined / number / string); items are association lists of
properties.  `Buffer.from(..).toString('base64')` and UTF-8 decoding are
modelled by executable byte-level encoders/decoders defined below, and the
round-trip laws needed by the codec claims are proved from first principles.
-/

/-- Decidable equality for `Except`, used to evaluate the model on concrete
inputs. -/
instance {ε : Type u} {α : Type v} [DecidableEq ε] [DecidableEq α] :
    DecidableEq (Except ε α)
  | .error a, .error b =>
    match decEq a b with
    | isTrue h => isTrue (h ▸ rfl)
    | isFalse h => isFalse fun hc => h (Except.error.inj hc)
  | .error _, .ok _ => isFalse fun hc => Except.noConfusion hc
  | .ok _, .error _ => isFalse fun hc => Except.noConfusion hc
  | .ok a, .ok b =>
    match decEq a b with
    | isTrue h => isTrue (h ▸ rfl)
    | isFalse h => isFalse fun hc => h (Except.ok.inj hc)

namespace RelayPagination

/-- A JavaScript value as it appears in items, cursors and edge properties:
`undefined`, a number (items in the repository use integers), or a string. -/
inductive JVal where
  | undefined : JVal
  | num : Int → JVal
  | str : String → JVal
deriving Repr, DecidableEq, Inhabited

/-- A JavaScript object used as a data item: an association list from
property names to values (property order preserved, keys unique in practice). -/
abbrev Item := List (String × JVal)

/-- `item[k]` — property read; a missing property reads as `undefined`. -/
def getProp (item : Item) (k : String) : JVal :=
  match item.find? (fun p => p.1 == k) with
  | some p => p.2
  | none => .undefined

/-- `delete item[k]` — property deletion, modelled functionally. -/
def delProp (item : Item) (k : String) : Item :=
  item.filter (fun p => p.1 != k)

/-- JavaScript string coercion `` `${v}` `` for the values we model. -/
def jvalToString : JVal → String
  | .undefined => "undefined"
  | .num n => toString n
  | .str s => s

/-- JavaScript truthiness `!!v` for the values we model. -/
def jsTruthy : JVal → Bool
  | .undefined => false
  | .num n => n != 0
  | .str s => s != ""

/-! ## Base64 (the encoding used by `Buffer.toString('base64')`) -/

/-- The standard base64 alphabet, as a list of characters. -/
def b64Alphabet : List Char :=
  ['A','B','C','D','E','F','G','H','I','J','K','L','M','N','O','P','Q','R','S','T',
   'U','V','W','X','Y','Z','a','b','c','d','e','f','g','h','i','j','k','l','m','n',
   'o','p','q','r','s','t','u','v','w','x','y','z','0','1','2','3','4','5','6','7',
   '8','9','+','/']

/-- The base64 digit for a 6-bit value. -/
def b64Char (v : Nat) : Char := b64Alphabet.getD v '?'

/-- The 6-bit value of a base64 digit, `none` for characters outside the
alphabet (including the padding character `=`). -/
def b64Val? (c : Char) : Option Nat :=
  let i := b64Alphabet.indexOf c
  if i < 64 then some i else none

/-- Base64-encode a byte list (bytes are `Nat`s below 256), with `=` padding,
as `Buffer.prototype.toString('base64')` produces. -/
def b64EncodeAux : List Nat → List Char
  | [] => []
  | [b0] =>
      [b64Char (b0 / 4), b64Char (b0 % 4 * 16), '=', '=']
  | [b0, b1] =>
      [b64Char (b0 / 4), b64Char (b0 % 4 * 16 + b1 / 16), b64Char (b1 % 16 * 4), '=']
  | b0 :: b1 :: b2 :: rest =>
      b64Char (b0 / 4) :: b64Char (b0 % 4 * 16 + b1 / 16) ::
      b64Char (b1 % 16 * 4 + b2 / 64) :: b64Char (b2 % 64) :: b64EncodeAux rest

/-- Base64-decode a character list into bytes; `none` on input that is not
well-formed base64 (`Buffer.from(_, 'base64')` is lenient on such input, but no
claim exercises that path — every decoded cursor in the claims is well-formed). -/
def b64DecodeAux : List Char → Option (List Nat)
  | [] => some []
  | c0 :: c1 :: c2 :: c3 :: rest =>
    match b64Val? c0, b64Val? c1 with
    | some v0, some v1 =>
      if c2 = '=' then
        if c3 = '=' ∧ rest = [] then some [v0 * 4 + v1 / 16] else none
      else
        match b64Val? c2 with
        | some v2 =>
          if c3 = '=' then
            if rest = [] then some [v0 * 4 + v1 / 16, v1 % 16 * 16 + v2 / 4] else none
          else
            match b64Val? c3 with
            | some v3 =>
              (b64DecodeAux rest).map
                (fun bs => (v0 * 4 + v1 / 16) :: (v1 % 16 * 16 + v2 / 4) :: (v2 % 4 * 64 + v3) :: bs)
            | none => none
        | none => none
    | _, _ => none
  | _ => none

/-! ## UTF-8 (the byte form `Buffer.from(string)` produces and
`toString('utf-8')` consumes) -/

/-- UTF-8 encoding of a single character (1–4 bytes). -/
def utf8EncodeChar (c : Char) : List Nat :=
  if c.toNat < 0x80 then [c.toNat]
  else if c.toNat < 0x800 then [0xC0 + c.toNat / 64, 0x80 + c.toNat % 64]
  else if c.toNat < 0x10000 then
    [0xE0 + c.toNat / 4096, 0x80 + c.toNat / 64 % 64, 0x80 + c.toNat % 64]
  else
    [0xF0 + c.toNat / 262144, 0x80 + c.toNat / 4096 % 64, 0x80 + c.toNat / 64 % 64,
     0x80 + c.toNat % 64]

/-- UTF-8 encoding of a string. -/
def utf8Encode (s : String) : List Nat := s.data.flatMap utf8EncodeChar

/-- Decode one UTF-8-encoded character from the front of a byte list,
returning it with the remaining bytes; `none` on malformed input
(Node replaces malformed sequences, but no claim exercises that path). -/
def utf8DecodeOne : List Nat → Option (Char × List Nat)
  | [] => none
  | b :: bs =>
    if b < 0x80 then some (Char.ofNat b, bs)
    else if b < 0xC0 then none
    else if b < 0xE0 then
      match bs with
      | b1 :: bs1 =>
        if 0x80 ≤ b1 ∧ b1 < 0xC0 then
          some (Char.ofNat ((b - 0xC0) * 64 + (b1 - 0x80)), bs1)
        else none
      | [] => none
    else if b < 0xF0 then
      match bs with
      | b1 :: b2 :: bs2 =>
        if (0x80 ≤ b1 ∧ b1 < 0xC0) ∧ (0x80 ≤ b2 ∧ b2 < 0xC0) then
          some (Char.ofNat ((b - 0xE0) * 4096 + (b1 - 0x80) * 64 + (b2 - 0x80)), bs2)
        else none
      | _ => none
    else if b < 0xF8 then
      match bs with
      | b1 :: b2 :: b3 :: bs3 =>
        if (0x80 ≤ b1 ∧ b1 < 0xC0) ∧ (0x80 ≤ b2 ∧ b2 < 0xC0) ∧ (0x80 ≤ b3 ∧ b3 < 0xC0) then
          some (Char.ofNat ((b - 0xF0) * 262144 + (b1 - 0x80) * 4096 +
            (b2 - 0x80) * 64 + (b3 - 0x80)), bs3)
        else none
      | _ => none
    else none

theorem utf8DecodeOne_shorter :
    ∀ l c rest, utf8DecodeOne l = some (c, rest) → rest.length < l.length := by
  intro l c rest h
  match l with
  | [] => simp [utf8DecodeOne] at h
  | b :: bs =>
    simp only [utf8DecodeOne] at h
    split at h
    · injection h with h1
      injection h1 with _ h2
      subst h2
      simp
    · split at h
      · exact absurd h (by simp)
      · split at h
        · split at h
          · split at h
            · injection h with h1
              injection h1 with _ h2
              subst h2
              simp
              omega
            · exact absurd h (by simp)
          · exact absurd h (by simp)
        · split at h
          · split at h
            · split at h
              · injection h with h1
                injection h1 with _ h2
                subst h2
                simp
                omega
              · exact absurd h (by simp)
            · exact absurd h (by simp)
          · split at h
            · split at h
              · split at h
                · injection h with h1
                  injection h1 with _ h2
                  subst h2
                  simp
                  omega
                · exact absurd h (by simp)
              · exact absurd h (by simp)
            · exact absurd h (by simp)

/-- UTF-8 decoding of a full byte list. -/
def utf8DecodeAux : List Nat → Option (List Char)
  | [] => some []
  | b :: bs =>
    match h : utf8DecodeOne (b :: bs) with
    | none => none
    | some (c, rest) => (utf8DecodeAux rest).map (c :: ·)
termination_by l => l.length
decreasing_by
  simpa using utf8DecodeOne_shorter _ _ _ h

/-! ## The cursor codec (`encodeCursor` / `decodeCursor` in `helpers.js`) -/

/-- The decoded form of a cursor: `{ typeName, id }`. -/
structure Cursor where
  typeName : String
  id : String
deriving Repr, DecidableEq

/-- `encodeCursor(typeName, id)`:
`Buffer.from(`​`${typeName}:${id}`​`).toString('base64')`.
The `id` argument is taken here already in its JavaScript string form. -/
def encodeCursor (typeName id : String) : String :=
  (b64EncodeAux (utf8Encode (typeName ++ ":" ++ id))).asString

/-- `encodeCursor` applied to a string-or-number second argument, with the
template literal's string coercion made explicit. -/
def encodeCursorJ (typeName : String) (id : JVal) : String :=
  encodeCursor typeName (jvalToString id)

/-- `decodeCursor(cursor)`: base64-decode, read as UTF-8 text, split on `:`;
destructuring takes the first two parts, and the falsy check
`!typeName || !id` rejects a missing or empty part with
`'Invalid cursor provided'`. -/
def splitChar (sep : Char) : List Char → List (List Char)
  | [] => [[]]
  | c :: rest =>
    match splitChar sep rest with
    | [] => [[c]]
    | p :: ps => if c = sep then [] :: p :: ps else (c :: p) :: ps

/-- The tail of `decodeCursor` once the base64/UTF-8 decoded text is known:
`const [typeName, id] = text.split(':')` followed by the falsy check
`!typeName || !id` (a missing part destructures to `undefined`, which is falsy
exactly like the empty string). -/
def decodeText (chars : List Char) : Except String Cursor :=
  let parts := splitChar ':' chars
  let typeName := parts.getD 0 []
  let id := parts.getD 1 []
  if typeName = [] ∨ id = [] then .error "Invalid cursor provided"
  else .ok ⟨typeName.asString, id.asString⟩

def decodeCursor (cursor : String) : Except String Cursor :=
  match (b64DecodeAux cursor.data).bind utf8DecodeAux with
  | none => .error "Invalid cursor provided"
  | some chars => decodeText chars

/-! ## The windowing engine (`connectionFromArray` in `helpers.js`) -/

/-- `PAGINATION_MODE`: `'simple' | 'edges'`. -/
inductive PaginationMode where
  | simple : PaginationMode
  | edges : PaginationMode
deriving Repr, DecidableEq, Inhabited

/-- A value of the `edgeProps`/`connectionProps` configuration maps: either a
GraphQL type string, or a one-level nested map scoping entries to a name
prefix key. -/
inductive ExtraPropVal where
  | typeStr : String → ExtraPropVal
  | nested : List (String × String) → ExtraPropVal
deriving Repr, DecidableEq

/-- `cursorPropOrFn`: a property name to read the cursor from, or a function
`(typeName, item) => cursorValue`.  The function receives `none` when the code
passes `undefined` (the empty-slice reads `slice[0]`); user functions that
throw are not modelled — no claim exercises them. -/
inductive CursorPropOrFn where
  | prop : String → CursorPropOrFn
  | fn : (String → Option Item → JVal) → CursorPropOrFn

/-- The per-type options object destructured by `connectionFromArray`
(defaults as in the source), plus `connectionProps`, which
`connectionFromArray` ignores but the schema transformer reads. -/
structure Config where
  paginationMode : PaginationMode := .edges
  edgeProps : Option (List (String × ExtraPropVal)) := none
  encodeCursor : Bool := true
  cursorPropOrFn : CursorPropOrFn := .prop "id"
  connectionProps : Option (List (String × ExtraPropVal)) := none

/-- The caller-supplied partial `pageInfo` override. -/
structure PageInfoPartial where
  hasPreviousPage : Option Bool := none
  hasNextPage : Option Bool := none
deriving Repr, DecidableEq

/-- The computed `pageInfo` object. -/
structure PageInfo where
  startCursor : JVal
  endCursor : JVal
  hasPreviousPage : Bool
  hasNextPage : Bool
deriving Repr, DecidableEq, Inhabited

/-- One edge: `{...relocatedEdgeProps, cursor, node}`.  `edgeProps` holds the
spread entries that survive the object literal — the literal's own `cursor`
and `node` keys shadow spread entries of those names, so `edgeProps` never
contains a `cursor` or `node` key (see `mkEdge`). -/
structure Edge where
  edgeProps : List (String × JVal)
  cursor : JVal
  node : Item
deriving Repr, DecidableEq, Inhabited

/-- The `edges` value of a connection: raw items in simple mode, edge objects
in edges mode. -/
inductive ConnEdges where
  | simple : List Item → ConnEdges
  | edges : List Edge → ConnEdges
deriving Repr, DecidableEq, Inhabited

/-- The connection envelope `{...connectionProps, edges, pageInfo}`.  Extra
top-level keys spread from `connectionProps` are kept in `extraProps`
(they can never collide with `edges`/`pageInfo`, which the object literal
always overwrites). -/
structure Connection where
  extraProps : List (String × JVal) := []
  edges : ConnEdges
  pageInfo : PageInfo
deriving Repr, DecidableEq, Inhabited

/-- The message of the `InvalidArgument` failure for a negative `first`. -/
def invalidFirstMsg : String := "Argument \"first\" must be a non-negative integer"

/-- The message class of a JavaScript `TypeError` from reading a property of
`undefined` (e.g. `slice[0]['id']` or `edges[0].cursor` on an empty list, or
`undefined.slice`). -/
def typeErrorMsg : String := "TypeError: Cannot read properties of undefined"

/-- The wrapper's failure message for a non-object resolver result. -/
def connMsg : String := "Connection responses must be an array or object"

/-- `typeof first === 'number' && first < 0` — `first` is modelled as
`Option Int` (`none` means `undefined`/`null`). -/
def firstNeg : Option Int → Bool
  | some f => f < 0
  | none => false

/-- `arrayItems.slice(0, first)`: the whole list when `first` is
`undefined`, the first `first` items otherwise (`first ≥ 0` here — a
negative `first` has already been rejected before the slice is taken). -/
def jsSlice (items : List Item) (first : Option Int) : List Item :=
  match first with
  | none => items
  | some f => items.take f.toNat

/-- `len >= first` under JavaScript comparison semantics: comparison with
`undefined` is `false`. -/
def jsGe (len : Nat) (first : Option Int) : Bool :=
  match first with
  | none => false
  | some f => decide ((len : Int) ≥ f)

/-- `defaultEncodeCursorFn(typeName, val, cursorProp, shouldEncode)` for a
present item, and the function branch of `getCursor`. -/
def getCursorVal (baseType : String) (cfg : Config) (item : Item) : JVal :=
  match cfg.cursorPropOrFn with
  | .prop p =>
    if cfg.encodeCursor then .str (encodeCursor baseType (jvalToString (getProp item p)))
    else getProp item p
  | .fn f => f baseType (some item)

/-- `getCursor(baseType, item)` where the item may be `undefined`
(`slice[0]` of an empty slice): reading `val[cursorProp]` on `undefined`
throws a `TypeError`; a cursor function is simply invoked with `undefined`. -/
def getCursorOpt (baseType : String) (cfg : Config) : Option Item → Except String JVal
  | some item => .ok (getCursorVal baseType cfg item)
  | none =>
    match cfg.cursorPropOrFn with
    | .prop _ => .error typeErrorMsg
    | .fn f => .ok (f baseType none)

/-- `getEdgeProps(edgeProps, val)`: for each key of `edgeProps` in order,
read `val[prop]` and then `delete val[prop]`; returns the collected props and
the stripped item (the source mutates `val` in place). -/
def getEdgeProps : List String → Item → List (String × JVal) × Item
  | [], item => ([], item)
  | k :: ks, item =>
    let v := getProp item k
    let rest := getEdgeProps ks (delProp item k)
    ((k, v) :: rest.1, rest.2)

/-- One mapped edge `{...(edgeProps && getEdgeProps(edgeProps, value)),
cursor: getCursor(baseType, value), node: value}`; the spread runs first, so
the cursor is read from the already-stripped item, and the literal `cursor`
and `node` keys overwrite any spread entry of the same name — a relocated
property named `cursor` or `node` is therefore dropped from the extra
props (its value does not survive on the edge). -/
def mkEdge (baseType : String) (cfg : Config) (value : Item) : Edge :=
  match cfg.edgeProps with
  | none => { edgeProps := [], cursor := getCursorVal baseType cfg value, node := value }
  | some eps =>
    let pr := getEdgeProps (eps.map (fun p => p.1)) value
    { edgeProps := pr.1.filter (fun q => q.1 != "cursor" && q.1 != "node"),
      cursor := getCursorVal baseType cfg pr.2, node := pr.2 }

/-- The body of `connectionFromArray` after the `first` validation. -/
def connectionBody (baseType : String) (arrayItems : List Item) (first : Option Int)
    (after : JVal) (config : Config) (pip : Option PageInfoPartial)
    (cp : Option (List (String × JVal))) : Except String Connection :=
  match config.paginationMode with
  | .simple =>
    match getCursorOpt baseType config (jsSlice arrayItems first).head? with
    | .error e => .error e
    | .ok sc =>
      match getCursorOpt baseType config (jsSlice arrayItems first).getLast? with
      | .error e => .error e
      | .ok ec =>
        .ok { extraProps := cp.getD [],
              edges := .simple (jsSlice arrayItems first),
              pageInfo :=
                { startCursor := sc, endCursor := ec,
                  hasPreviousPage :=
                    (pip.bind PageInfoPartial.hasPreviousPage).getD (jsTruthy after),
                  hasNextPage :=
                    (pip.bind PageInfoPartial.hasNextPage).getD (jsGe arrayItems.length first) } }
  | .edges =>
    match jsSlice arrayItems first with
    | [] => .error typeErrorMsg
    | v :: vs =>
      .ok { extraProps := cp.getD [],
            edges := .edges (mkEdge baseType config v :: vs.map (mkEdge baseType config)),
            pageInfo :=
              { startCursor := (mkEdge baseType config v).cursor,
                endCursor :=
                  ((vs.map (mkEdge baseType config)).getLastD (mkEdge baseType config v)).cursor,
                hasPreviousPage :=
                  (pip.bind PageInfoPartial.hasPreviousPage).getD (jsTruthy after),
                hasNextPage :=
                  (pip.bind PageInfoPartial.hasNextPage).getD (jsGe arrayItems.length first) } }

/-- `connectionFromArray(baseType, arrayItems, {first, after}, config,
pageInfoPartial, connectionProps)` from `helpers.js`. -/
def connectionFromArray (baseType : String) (arrayItems : List Item) (first : Option Int)
    (after : JVal) (config : Config := {}) (pip : Option PageInfoPartial := none)
    (cp : Option (List (String × JVal)) := none) : Except String Connection :=
  if firstNeg first then .error invalidFirstMsg
  else connectionBody baseType arrayItems first after config pip cp

/-! ## The wrapping resolver (`connectionDirective.js`, field transform) -/

/-- The settled result of the original resolver, as the wrapper inspects it. -/
inductive ResolverResult where
  | str : String → ResolverResult
  | num : Int → ResolverResult
  | boolean : Bool → ResolverResult
  | nullVal : ResolverResult
  | undefined : ResolverResult
  | arr : List Item → ResolverResult
  | obj : Option (List Item) → Option PageInfoPartial → List (String × JVal) → ResolverResult

/-- JavaScript `typeof` on a resolver result.  Note `typeof null` is
`'object'`. -/
def jsTypeof : ResolverResult → String
  | .str _ => "string"
  | .num _ => "number"
  | .boolean _ => "boolean"
  | .nullVal => "object"
  | .undefined => "undefined"
  | .arr _ => "object"
  | .obj _ _ _ => "object"

/-- `Object.entries` of a JavaScript string: index keys (as strings) mapped to
its one-character strings — what the source's recursion produces when an
`edgeProps` entry under the prefix key is itself a string. -/
def stringEntries (s : String) : List (String × ExtraPropVal) :=
  s.data.enum.map (fun p => (toString p.1, ExtraPropVal.typeStr (String.mk [p.2])))

/-- `typeOptions.edgeProps = typeOptions.edgeProps?.[prefix] ?? typeOptions.edgeProps`
— the wrapper narrows `edgeProps` to the entry under the field's name prefix
when one exists (`??` replaces only `undefined`, so even an empty-string entry
replaces the map). -/
def narrowEdgeProps (pfx : String) (cfg : Config) : Config :=
  match cfg.edgeProps with
  | none => cfg
  | some eps =>
    match (eps.find? (fun p => p.1 == pfx)).map (fun p => p.2) with
    | some (ExtraPropVal.nested m) =>
      { cfg with edgeProps := some (m.map (fun q => (q.1, ExtraPropVal.typeStr q.2))) }
    | some (ExtraPropVal.typeStr s) => { cfg with edgeProps := some (stringEntries s) }
    | none => cfg

/-- The resolver the transformer installs on a tagged field, applied to the
settled result `res` of the original resolver:
narrow `edgeProps`, reject non-objects, then window the array (or the
object's `edges` with its `pageInfo`/rest as overrides). -/
def wrappedResolve (baseType pfx : String) (typeOptions : Option Config)
    (first : Option Int) (after : JVal) (res : ResolverResult) : Except String Connection :=
  let opts := (typeOptions.map (narrowEdgeProps pfx)).getD {}
  if jsTypeof res ≠ "object" then .error connMsg
  else
    match res with
    | .arr items => connectionFromArray baseType items first after opts none none
    | .obj edgesVal pageInfo extra =>
      match edgesVal with
      | none => .error typeErrorMsg
      | some items => connectionFromArray baseType items first after opts pageInfo (some extra)
    | .nullVal => .error typeErrorMsg
    | _ => .error connMsg

/-! ## Schema type synthesis (`connectionDirectiveTransformer`) -/

/-- A `ConnectionFieldBinding`: the base (node) type name extracted from the
field's type signature, and the name prefix (directive argument or the base
type name).  The recorded resolver is irrelevant to type synthesis. -/
structure Binding where
  typeName : String
  pfx : String
deriving Repr, DecidableEq

/-- A synthesized GraphQL type definition: its name and its field lines
(field name, type string), in emission order. -/
structure TypeDef where
  name : String
  fields : List (String × String)
deriving Repr, DecidableEq

/-- The entries of a flat props map whose values are strings (the source's
`Object.entries(...).filter(([, val]) => typeof val === 'string')`). -/
def flatEntries (m : List (String × ExtraPropVal)) : List (String × String) :=
  m.filterMap (fun p =>
    match p.2 with
    | .typeStr s => some (p.1, s)
    | .nested _ => none)

/-- `mapAdditionalProps(additionalProps, subKey)`: `''` when the map is
absent; when `subKey` names a truthy entry, recurse into that entry (a nested
map keeps its string entries; a non-empty string is treated as an array-like
object of characters); otherwise the flat string entries. -/
def mapAdditionalProps (props : Option (List (String × ExtraPropVal)))
    (subKey : Option String) : List (String × String) :=
  match props with
  | none => []
  | some m =>
    match subKey with
    | none => flatEntries m
    | some k =>
      match (m.find? (fun p => p.1 == k)).map (fun p => p.2) with
      | some (ExtraPropVal.nested mm) => mm
      | some (ExtraPropVal.typeStr s) =>
        if s = "" then flatEntries m else flatEntries (stringEntries s)
      | none => flatEntries m

/-- The `PageInfo` type synthesized when the schema has none. -/
def pageInfoTypeDef : TypeDef :=
  { name := "PageInfo",
    fields := [("startCursor", "String"), ("endCursor", "String"),
               ("hasNextPage", "Boolean!"), ("hasPreviousPage", "Boolean!")] }

/-- `options[typeName]` — the per-type options looked up for a binding. -/
def typeOptionsFor (options : List (String × Config)) (typeName : String) : Option Config :=
  (options.find? (fun p => p.1 == typeName)).map (fun p => p.2)

/-- `typeOptions?.paginationMode === PAGINATION_MODE.SIMPLE` (an absent
options entry is not simple). -/
def isSimpleOpt (o : Option Config) : Prop :=
  o.map Config.paginationMode = some .simple

instance (o : Option Config) : Decidable (isSimpleOpt o) := by
  unfold isSimpleOpt
  infer_instance

/-- The `edgeName` the source computes: the base type itself in simple mode,
else `${prefix}Edge`. -/
def edgeNameFor (o : Option Config) (b : Binding) : String :=
  if isSimpleOpt o then b.typeName else b.pfx ++ "Edge"

/-- The Edge type pushed for a binding (empty in simple mode or when the name
already exists). -/
def edgeDefsFor (existingTypes : List String) (o : Option Config) (b : Binding) :
    List TypeDef :=
  if isSimpleOpt o then []
  else if (b.pfx ++ "Edge") ∈ existingTypes then []
  else
    [{ name := b.pfx ++ "Edge",
       fields := [("cursor", "ID!"), ("node", b.typeName)] ++
         mapAdditionalProps (o.bind Config.edgeProps) (some b.pfx) }]

/-- The Connection type pushed for a binding (empty when the name already
exists). -/
def connDefsFor (existingTypes : List String) (o : Option Config) (b : Binding) :
    List TypeDef :=
  if (b.pfx ++ "Connection") ∈ existingTypes then []
  else
    [{ name := b.pfx ++ "Connection",
       fields := [("edges", "[" ++ edgeNameFor o b ++ "!]!"), ("pageInfo", "PageInfo!")] ++
         mapAdditionalProps (o.bind Config.connectionProps) (some b.pfx) }]

/-- The loop body over discovered `@connection` bindings: synthesize the
`${prefix}Edge` type (unless simple mode or the name already exists) and the
`${prefix}Connection` type (unless the name already exists). -/
def synthBinding (existingTypes : List String) (options : List (String × Config))
    (b : Binding) : List TypeDef :=
  edgeDefsFor existingTypes (typeOptionsFor options b.typeName) b ++
    connDefsFor existingTypes (typeOptionsFor options b.typeName) b

/-- The full type-synthesis phase: a `PageInfo` type when the schema lacks
one, then the Edge/Connection types for every recorded binding.  The emitted
definitions are merged into the schema by the external merge facility; nothing
here rewrites an existing type. -/
def synthesizeTypes (existingTypes : List String) (bindings : List Binding)
    (options : List (String × Config)) : List TypeDef :=
  (if "PageInfo" ∈ existingTypes then [] else [pageInfoTypeDef]) ++
    bindings.flatMap (synthBinding existingTypes options)

/-! ## Round-trip laws for the codec layers -/

theorem b64Val?_b64Char : ∀ v, v < 64 → b64Val? (b64Char v) = some v := by decide

theorem b64Char_ne_pad : ∀ v, v < 64 → b64Char v ≠ '=' := by decide

theorem b64_roundtrip :
    ∀ bs : List Nat, (∀ b ∈ bs, b < 256) → b64DecodeAux (b64EncodeAux bs) = some bs
  | [], _ => rfl
  | [b0], h => by
    have hb0 : b0 < 256 := h b0 (by simp)
    have h0 : b0 / 4 < 64 := by omega
    have h1 : b0 % 4 * 16 < 64 := by omega
    simp only [b64EncodeAux, b64DecodeAux, b64Val?_b64Char _ h0, b64Val?_b64Char _ h1,
      if_pos rfl, and_self, reduceIte]
    have he : b0 / 4 * 4 + b0 % 4 * 16 / 16 = b0 := by omega
    rw [he]
  | [b0, b1], h => by
    have hb0 : b0 < 256 := h b0 (by simp)
    have hb1 : b1 < 256 := h b1 (by simp)
    have h0 : b0 / 4 < 64 := by omega
    have h1 : b0 % 4 * 16 + b1 / 16 < 64 := by omega
    have h2 : b1 % 16 * 4 < 64 := by omega
    simp only [b64EncodeAux, b64DecodeAux, b64Val?_b64Char _ h0, b64Val?_b64Char _ h1,
      b64Val?_b64Char _ h2, if_neg (b64Char_ne_pad _ h2), if_pos rfl, reduceIte]
    have e0 : b0 / 4 * 4 + (b0 % 4 * 16 + b1 / 16) / 16 = b0 := by omega
    have e1 : (b0 % 4 * 16 + b1 / 16) % 16 * 16 + b1 % 16 * 4 / 4 = b1 := by omega
    rw [e0, e1]
  | b0 :: b1 :: b2 :: b3rest, h => by
    have hb0 : b0 < 256 := h b0 (by simp)
    have hb1 : b1 < 256 := h b1 (by simp)
    have hb2 : b2 < 256 := h b2 (by simp)
    have h0 : b0 / 4 < 64 := by omega
    have h1 : b0 % 4 * 16 + b1 / 16 < 64 := by omega
    have h2 : b1 % 16 * 4 + b2 / 64 < 64 := by omega
    have h3 : b2 % 64 < 64 := by omega
    have ih := b64_roundtrip b3rest (fun b hb => h b (by simp [hb]))
    simp only [b64EncodeAux, b64DecodeAux, b64Val?_b64Char _ h0, b64Val?_b64Char _ h1,
      b64Val?_b64Char _ h2, b64Val?_b64Char _ h3, if_neg (b64Char_ne_pad _ h2),
      if_neg (b64Char_ne_pad _ h3), ih]
    have e0 : b0 / 4 * 4 + (b0 % 4 * 16 + b1 / 16) / 16 = b0 := by omega
    have e1 : (b0 % 4 * 16 + b1 / 16) % 16 * 16 + (b1 % 16 * 4 + b2 / 64) / 4 = b1 := by omega
    have e2 : (b1 % 16 * 4 + b2 / 64) % 4 * 64 + b2 % 64 = b2 := by omega
    rw [e0, e1, e2]
    rfl

theorem char_toNat_lt (c : Char) : c.toNat < 1114112 := by
  rcases c.valid with hv | hv
  · exact Nat.lt_trans hv (by norm_num)
  · exact hv.2

theorem utf8EncodeChar_lt256 (c : Char) : ∀ b ∈ utf8EncodeChar c, b < 256 := by
  have hv := char_toNat_lt c
  intro b hb
  unfold utf8EncodeChar at hb
  split at hb
  · simp at hb
    omega
  · split at hb
    · simp at hb
      rcases hb with hb | hb <;> omega
    · split at hb
      · simp at hb
        rcases hb with hb | hb | hb <;> omega
      · simp at hb
        rcases hb with hb | hb | hb | hb <;> omega

theorem utf8EncodeList_lt256 (cs : List Char) :
    ∀ b ∈ cs.flatMap utf8EncodeChar, b < 256 := by
  intro b hb
  rcases List.mem_flatMap.mp hb with ⟨c, _, hc⟩
  exact utf8EncodeChar_lt256 c b hc

theorem utf8DecodeOne_encodeChar (c : Char) (rest : List Nat) :
    utf8DecodeOne (utf8EncodeChar c ++ rest) = some (c, rest) := by
  have hv := char_toNat_lt c
  unfold utf8EncodeChar
  by_cases h1 : c.toNat < 0x80
  · rw [if_pos h1]
    show utf8DecodeOne (c.toNat :: rest) = _
    simp only [utf8DecodeOne]
    rw [if_pos h1, Char.ofNat_toNat]
  · rw [if_neg h1]
    by_cases h2 : c.toNat < 0x800
    · rw [if_pos h2]
      show utf8DecodeOne ((0xC0 + c.toNat / 64) :: (0x80 + c.toNat % 64) :: rest) = _
      simp only [utf8DecodeOne]
      rw [if_neg (by omega), if_neg (by omega), if_pos (by omega),
        if_pos ⟨by omega, by omega⟩]
      have he : (0xC0 + c.toNat / 64 - 0xC0) * 64 + (0x80 + c.toNat % 64 - 0x80) = c.toNat := by
        omega
      rw [he, Char.ofNat_toNat]
    · rw [if_neg h2]
      by_cases h3 : c.toNat < 0x10000
      · rw [if_pos h3]
        show utf8DecodeOne
          ((0xE0 + c.toNat / 4096) :: (0x80 + c.toNat / 64 % 64) :: (0x80 + c.toNat % 64) :: rest)
          = _
        simp only [utf8DecodeOne]
        rw [if_neg (by omega), if_neg (by omega), if_neg (by omega), if_pos (by omega),
          if_pos ⟨⟨by omega, by omega⟩, by omega, by omega⟩]
        have he : (0xE0 + c.toNat / 4096 - 0xE0) * 4096 + (0x80 + c.toNat / 64 % 64 - 0x80) * 64 +
            (0x80 + c.toNat % 64 - 0x80) = c.toNat := by omega
        rw [he, Char.ofNat_toNat]
      · rw [if_neg h3]
        show utf8DecodeOne
          ((0xF0 + c.toNat / 262144) :: (0x80 + c.toNat / 4096 % 64) ::
            (0x80 + c.toNat / 64 % 64) :: (0x80 + c.toNat % 64) :: rest) = _
        simp only [utf8DecodeOne]
        rw [if_neg (by omega), if_neg (by omega), if_neg (by omega), if_neg (by omega),
          if_pos (by omega),
          if_pos ⟨⟨by omega, by omega⟩, ⟨by omega, by omega⟩, by omega, by omega⟩]
        have he : (0xF0 + c.toNat / 262144 - 0xF0) * 262144 +
            (0x80 + c.toNat / 4096 % 64 - 0x80) * 4096 +
            (0x80 + c.toNat / 64 % 64 - 0x80) * 64 + (0x80 + c.toNat % 64 - 0x80) = c.toNat := by
          omega
        rw [he, Char.ofNat_toNat]

theorem utf8EncodeChar_ne_nil (c : Char) : utf8EncodeChar c ≠ [] := by
  unfold utf8EncodeChar
  split
  · simp
  · split
    · simp
    · split <;> simp

theorem utf8DecodeAux_encodeChar (c : Char) (rest : List Nat) :
    utf8DecodeAux (utf8EncodeChar c ++ rest) = (utf8DecodeAux rest).map (c :: ·) := by
  obtain ⟨b, bs, he⟩ : ∃ b bs, utf8EncodeChar c ++ rest = b :: bs := by
    cases hE : utf8EncodeChar c with
    | nil => exact absurd hE (utf8EncodeChar_ne_nil c)
    | cons x xs => exact ⟨x, xs ++ rest, by simp⟩
  rw [he, utf8DecodeAux, ← he, utf8DecodeOne_encodeChar]

theorem utf8_roundtrip (cs : List Char) :
    utf8DecodeAux (cs.flatMap utf8EncodeChar) = some cs := by
  induction cs with
  | nil => simp [utf8DecodeAux]
  | cons c cs ih =>
    rw [List.flatMap_cons, utf8DecodeAux_encodeChar, ih]
    rfl

/-! ## `splitChar` lemmas (JavaScript `split(':')`) -/

theorem splitChar_no_sep (sep : Char) (l : List Char) (h : sep ∉ l) :
    splitChar sep l = [l] := by
  induction l with
  | nil => rfl
  | cons c cs ih =>
    have hc : ¬ c = sep := fun hcs => h (hcs ▸ List.mem_cons_self c cs)
    rw [splitChar, ih (fun hm => h (List.mem_cons_of_mem c hm))]
    show (if c = sep then [[], cs] else [c :: cs]) = [c :: cs]
    rw [if_neg hc]

theorem splitChar_pair (sep : Char) (t i : List Char) (ht : sep ∉ t) (hi : sep ∉ i) :
    splitChar sep (t ++ sep :: i) = [t, i] := by
  induction t with
  | nil =>
    rw [List.nil_append, splitChar, splitChar_no_sep sep i hi]
    show (if sep = sep then [[], i] else [sep :: i]) = [[], i]
    rw [if_pos rfl]
  | cons c cs ih =>
    have hc : ¬ c = sep := fun hcs => ht (hcs ▸ List.mem_cons_self c cs)
    rw [List.cons_append, splitChar, ih (fun hm => ht (List.mem_cons_of_mem c hm))]
    show (if c = sep then [[], cs, i] else [c :: cs, i]) = [c :: cs, i]
    rw [if_neg hc]

/-! ## The codec round trip -/

theorem asString_data (s : String) : s.data.asString = s := by
  cases s
  rfl

theorem data_asString (l : List Char) : l.asString.data = l := rfl

/-- Decoding the encoding of any text recovers the text: the composite of the
base64 and UTF-8 round trips, leaving only the split/validation tail. -/
theorem decodeCursor_encodeText (chars : List Char) :
    decodeCursor (b64EncodeAux (chars.flatMap utf8EncodeChar)).asString = decodeText chars := by
  unfold decodeCursor
  rw [data_asString, b64_roundtrip _ (utf8EncodeList_lt256 chars), Option.some_bind,
    utf8_roundtrip]

/-- The round-trip law at string level. -/
theorem decodeCursor_encodeCursor (t i : String) (ht : t.data ≠ []) (hi : i.data ≠ [])
    (hct : ':' ∉ t.data) (hci : ':' ∉ i.data) :
    decodeCursor (encodeCursor t i) = .ok ⟨t, i⟩ := by
  have hdata : (t ++ ":" ++ i).data = t.data ++ ':' :: i.data := by
    rw [String.data_append, String.data_append]
    simp
  unfold encodeCursor utf8Encode
  rw [hdata, decodeCursor_encodeText]
  unfold decodeText
  rw [splitChar_pair ':' t.data i.data hct hci]
  simp only [List.getD_cons_zero, List.getD_cons_succ]
  rw [if_neg (by simp [ht, hi]), asString_data, asString_data]

/-! ## Windowing-engine lemmas -/

/-- `getCursorOpt` fails only with the `TypeError` of reading a property of
`undefined`. -/
theorem getCursorOpt_error (b : String) (cfg : Config) (o : Option Item) (e : String)
    (h : getCursorOpt b cfg o = .error e) : e = typeErrorMsg := by
  match o with
  | some it => simp [getCursorOpt] at h
  | none =>
    simp only [getCursorOpt] at h
    split at h
    · injection h with h1
      exact h1.symm
    · exact absurd h (by simp)

/-- The post-validation body fails only with a `TypeError`. -/
theorem connectionBody_error (b : String) (items : List Item) (first : Option Int)
    (after : JVal) (cfg : Config) (pip : Option PageInfoPartial)
    (cp : Option (List (String × JVal))) (m : String)
    (h : connectionBody b items first after cfg pip cp = .error m) : m = typeErrorMsg := by
  unfold connectionBody at h
  split at h
  · split at h
    · rename_i e heq
      injection h with h1
      subst h1
      exact getCursorOpt_error _ _ _ _ heq
    · split at h
      · rename_i e heq
        injection h with h1
        subst h1
        exact getCursorOpt_error _ _ _ _ heq
      · exact absurd h (by simp)
  · split at h
    · injection h with h1
      exact h1.symm
    · exact absurd h (by simp)

/-- `connectionFromArray` fails only with the negative-`first` message or a
`TypeError`. -/
theorem connectionFromArray_error (b : String) (items : List Item) (first : Option Int)
    (after : JVal) (cfg : Config) (pip : Option PageInfoPartial)
    (cp : Option (List (String × JVal))) (m : String)
    (h : connectionFromArray b items first after cfg pip cp = .error m) :
    m = invalidFirstMsg ∨ m = typeErrorMsg := by
  unfold connectionFromArray at h
  split at h
  · injection h with h1
    exact .inl h1.symm
  · exact .inr (connectionBody_error _ _ _ _ _ _ _ _ h)

/-- The exact result in edges mode on a non-empty slice. -/
theorem connectionFromArray_edges_ok (b : String) (items : List Item) (first : Option Int)
    (after : JVal) (cfg : Config) (pip : Option PageInfoPartial)
    (cp : Option (List (String × JVal))) (v : Item) (vs : List Item)
    (hmode : cfg.paginationMode = .edges) (hneg : firstNeg first = false)
    (hslice : jsSlice items first = v :: vs) :
    connectionFromArray b items first after cfg pip cp =
      .ok { extraProps := cp.getD [],
            edges := .edges (mkEdge b cfg v :: vs.map (mkEdge b cfg)),
            pageInfo :=
              { startCursor := (mkEdge b cfg v).cursor,
                endCursor := ((vs.map (mkEdge b cfg)).getLastD (mkEdge b cfg v)).cursor,
                hasPreviousPage :=
                  (pip.bind PageInfoPartial.hasPreviousPage).getD (jsTruthy after),
                hasNextPage :=
                  (pip.bind PageInfoPartial.hasNextPage).getD (jsGe items.length first) } } := by
  unfold connectionFromArray
  rw [hneg]
  simp only [Bool.false_eq_true, if_false]
  unfold connectionBody
  rw [hmode, hslice]

/-- The exact result in simple mode. -/
theorem connectionFromArray_simple_ok (b : String) (items : List Item) (first : Option Int)
    (after : JVal) (cfg : Config) (pip : Option PageInfoPartial)
    (cp : Option (List (String × JVal))) (sc ec : JVal)
    (hmode : cfg.paginationMode = .simple) (hneg : firstNeg first = false)
    (hsc : getCursorOpt b cfg (jsSlice items first).head? = .ok sc)
    (hec : getCursorOpt b cfg (jsSlice items first).getLast? = .ok ec) :
    connectionFromArray b items first after cfg pip cp =
      .ok { extraProps := cp.getD [],
            edges := .simple (jsSlice items first),
            pageInfo :=
              { startCursor := sc, endCursor := ec,
                hasPreviousPage :=
                  (pip.bind PageInfoPartial.hasPreviousPage).getD (jsTruthy after),
                hasNextPage :=
                  (pip.bind PageInfoPartial.hasNextPage).getD (jsGe items.length first) } } := by
  unfold connectionFromArray
  rw [hneg]
  simp only [Bool.false_eq_true, if_false]
  unfold connectionBody
  rw [hmode, hsc, hec]

/-- On success, both `pageInfo` booleans are the override-or-inferred values
computed by the source. -/
theorem connectionFromArray_ok_pageInfo (b : String) (items : List Item) (first : Option Int)
    (after : JVal) (cfg : Config) (pip : Option PageInfoPartial)
    (cp : Option (List (String × JVal))) (conn : Connection)
    (h : connectionFromArray b items first after cfg pip cp = .ok conn) :
    conn.pageInfo.hasPreviousPage =
        (pip.bind PageInfoPartial.hasPreviousPage).getD (jsTruthy after) ∧
      conn.pageInfo.hasNextPage =
        (pip.bind PageInfoPartial.hasNextPage).getD (jsGe items.length first) := by
  unfold connectionFromArray at h
  split at h
  · exact absurd h (by simp)
  · unfold connectionBody at h
    split at h
    · split at h
      · exact absurd h (by simp)
      · split at h
        · exact absurd h (by simp)
        · injection h with h1
          subst h1
          exact ⟨rfl, rfl⟩
    · split at h
      · exact absurd h (by simp)
      · injection h with h1
        subst h1
        exact ⟨rfl, rfl⟩

/-- Success implies `first` was not negative. -/
theorem connectionFromArray_ok_not_neg (b : String) (items : List Item) (first : Option Int)
    (after : JVal) (cfg : Config) (pip : Option PageInfoPartial)
    (cp : Option (List (String × JVal))) (conn : Connection)
    (h : connectionFromArray b items first after cfg pip cp = .ok conn) :
    firstNeg first = false := by
  cases hF : firstNeg first
  · rfl
  · unfold connectionFromArray at h
    rw [hF] at h
    exact absurd h (by simp)

/-- The slice-length comparison the spec describes agrees with the
whole-list comparison the source computes, once a negative `first` is ruled
out (`min len first ≥ first ↔ len ≥ first` for `first ≥ 0`). -/
theorem jsGe_slice (items : List Item) (first : Option Int)
    (hneg : firstNeg first = false) :
    jsGe (jsSlice items first).length first = jsGe items.length first := by
  match first with
  | none => rfl
  | some f =>
    have hf : 0 ≤ f := by
      by_contra hc
      simp only [firstNeg, decide_eq_false_iff_not, not_lt] at hneg
      omega
    simp only [jsSlice, jsGe, List.length_take]
    rw [decide_eq_decide]
    omega

/-! ## Edge-property relocation lemmas -/

/-- Reading a relocated property off an edge's collected props. -/
def lookupProp (l : List (String × JVal)) (k : String) : Option JVal :=
  (l.find? (fun p => p.1 == k)).map (fun p => p.2)

theorem find?_filter_ne (ps : Item) (k : String) :
    (ps.filter (fun p => p.1 != k)).find? (fun p => p.1 == k) = none := by
  induction ps with
  | nil => rfl
  | cons p ps ih =>
    by_cases hk : p.1 = k
    · simp [List.filter_cons, hk, ih]
    · simp [List.filter_cons, hk, ih]

/-- `delete item[k]` really removes `k`. -/
theorem getProp_delProp_self (item : Item) (k : String) :
    getProp (delProp item k) k = .undefined := by
  unfold getProp delProp
  rw [find?_filter_ne]

/-- `delete item[k']` leaves distinct properties readable. -/
theorem getProp_delProp_ne (item : Item) (k k' : String) (h : k ≠ k') :
    getProp (delProp item k') k = getProp item k := by
  unfold getProp delProp
  induction item with
  | nil => rfl
  | cons p ps ih =>
    by_cases h1 : p.1 = k'
    · have h2 : ¬ p.1 = k := fun hc => h (hc ▸ h1)
      rw [List.filter_cons_of_neg (by simp [h1]),
        List.find?_cons_of_neg _ (by simp [h2])]
      exact ih
    · rw [List.filter_cons_of_pos (by simp [h1])]
      by_cases h2 : p.1 = k
      · rw [List.find?_cons_of_pos _ (by simp [h2]), List.find?_cons_of_pos _ (by simp [h2])]
      · rw [List.find?_cons_of_neg _ (by simp [h2]), List.find?_cons_of_neg _ (by simp [h2])]
        exact ih

/-- Properties not in the relocation list survive stripping unchanged. -/
theorem getEdgeProps_snd_not_mem (ks : List String) (item : Item) (k : String)
    (hk : k ∉ ks) : getProp (getEdgeProps ks item).2 k = getProp item k := by
  induction ks generalizing item with
  | nil => rfl
  | cons k0 ks ih =>
    have h1 : k ≠ k0 := fun hc => hk (hc ▸ List.mem_cons_self k0 ks)
    show getProp (getEdgeProps ks (delProp item k0)).2 k = _
    rw [ih (delProp item k0) (fun hm => hk (List.mem_cons_of_mem k0 hm)),
      getProp_delProp_ne item k k0 h1]

/-- Every relocated property is gone from the stripped item (the `node`). -/
theorem getEdgeProps_snd_mem (ks : List String) (item : Item) (k : String)
    (hk : k ∈ ks) : getProp (getEdgeProps ks item).2 k = .undefined := by
  induction ks generalizing item with
  | nil => cases hk
  | cons k0 ks ih =>
    rcases List.mem_cons.mp hk with rfl | hk'
    · show getProp (getEdgeProps ks (delProp item k)).2 k = .undefined
      by_cases hmem : k ∈ ks
      · exact ih (delProp item k) hmem
      · rw [getEdgeProps_snd_not_mem ks (delProp item k) k hmem]
        exact getProp_delProp_self item k
    · show getProp (getEdgeProps ks (delProp item k0)).2 k = .undefined
      exact ih (delProp item k0) hk'

/-- Every relocated property appears in the collected edge props with the
item's original value (keys assumed distinct, as `Object.keys` yields). -/
theorem getEdgeProps_fst_lookup (ks : List String) (item : Item) (k : String)
    (hnd : ks.Nodup) (hk : k ∈ ks) :
    lookupProp (getEdgeProps ks item).1 k = some (getProp item k) := by
  induction ks generalizing item with
  | nil => cases hk
  | cons k0 ks ih =>
    rcases List.mem_cons.mp hk with rfl | hk'
    · show lookupProp ((k, getProp item k) :: (getEdgeProps ks (delProp item k)).1) k = _
      simp [lookupProp, List.find?_cons]
    · have h1 : k ≠ k0 := fun hc => (List.nodup_cons.mp hnd).1 (hc ▸ hk')
      show lookupProp ((k0, getProp item k0) :: (getEdgeProps ks (delProp item k0)).1) k = _
      unfold lookupProp
      rw [List.find?_cons_of_neg _ (by simp [h1.symm])]
      rw [show ((getEdgeProps ks (delProp item k0)).1.find? (fun p => p.1 == k)).map
            (fun p => p.2) = lookupProp (getEdgeProps ks (delProp item k0)).1 k from rfl]
      rw [ih (delProp item k0) (List.nodup_cons.mp hnd).2 hk',
        getProp_delProp_ne item k k0 h1]

/-- Dropping the shadowed `cursor`/`node` keys does not change the lookup of
any other key. -/
theorem lookupProp_filter_keys (l : List (String × JVal)) (k : String)
    (h1 : k ≠ "cursor") (h2 : k ≠ "node") :
    lookupProp (l.filter (fun q => q.1 != "cursor" && q.1 != "node")) k = lookupProp l k := by
  induction l with
  | nil => rfl
  | cons p ps ih =>
    by_cases hk : p.1 = k
    · rw [List.filter_cons_of_pos (by simp [hk, h1, h2])]
      unfold lookupProp
      rw [List.find?_cons_of_pos _ (by simp [hk]), List.find?_cons_of_pos _ (by simp [hk])]
    · by_cases hp : p.1 = "cursor" ∨ p.1 = "node"
      · rw [List.filter_cons_of_neg (by rcases hp with hp | hp <;> simp [hp])]
        unfold lookupProp at ih ⊢
        rw [List.find?_cons_of_neg _ (by simp [hk])]
        exact ih
      · push_neg at hp
        rw [List.filter_cons_of_pos (by simp [hp.1, hp.2])]
        unfold lookupProp at ih ⊢
        rw [List.find?_cons_of_neg _ (by simp [hk]), List.find?_cons_of_neg _ (by simp [hk])]
        exact ih

/-! ## Wrapper-resolver lemmas -/

/-- The windowing engine can never fail with the wrapper's non-object
message. -/
theorem connectionFromArray_ne_connMsg (b : String) (items : List Item) (first : Option Int)
    (after : JVal) (cfg : Config) (pip : Option PageInfoPartial)
    (cp : Option (List (String × JVal))) :
    connectionFromArray b items first after cfg pip cp ≠ .error connMsg := by
  intro h
  rcases connectionFromArray_error _ _ _ _ _ _ _ _ h with h1 | h1 <;> exact absurd h1 (by decide)

/-! ## Type-synthesis lemmas -/

/-- An Edge definition is only pushed when its name is not already taken. -/
theorem edgeDefsFor_not_existing (existingTypes : List String) (o : Option Config)
    (b : Binding) (td : TypeDef) (h : td ∈ edgeDefsFor existingTypes o b) :
    td.name ∉ existingTypes := by
  unfold edgeDefsFor at h
  split at h
  · simp at h
  · split at h
    · simp at h
    · rename_i hcond
      rw [List.mem_singleton] at h
      subst h
      exact hcond

/-- A Connection definition is only pushed when its name is not already
taken. -/
theorem connDefsFor_not_existing (existingTypes : List String) (o : Option Config)
    (b : Binding) (td : TypeDef) (h : td ∈ connDefsFor existingTypes o b) :
    td.name ∉ existingTypes := by
  unfold connDefsFor at h
  split at h
  · simp at h
  · rename_i hcond
    rw [List.mem_singleton] at h
    subst h
    exact hcond

/-- Nothing synthesized for a binding collides with an existing type name. -/
theorem synthBinding_not_existing (existingTypes : List String)
    (options : List (String × Config)) (b : Binding) (td : TypeDef)
    (h : td ∈ synthBinding existingTypes options b) : td.name ∉ existingTypes := by
  unfold synthBinding at h
  rcases List.mem_append.mp h with h1 | h1
  · exact edgeDefsFor_not_existing _ _ _ _ h1
  · exact connDefsFor_not_existing _ _ _ _ h1

/-- Nothing the transformer synthesizes collides with an existing type name. -/
theorem synthesizeTypes_not_existing (existingTypes : List String)
    (bindings : List Binding) (options : List (String × Config)) (td : TypeDef)
    (h : td ∈ synthesizeTypes existingTypes bindings options) : td.name ∉ existingTypes := by
  unfold synthesizeTypes at h
  rcases List.mem_append.mp h with h1 | h1
  · split at h1
    · simp at h1
    · rename_i hcond
      rw [List.mem_singleton] at h1
      subst h1
      exact hcond
  · rcases List.mem_flatMap.mp h1 with ⟨bd, _, hmem⟩
    exact synthBinding_not_existing existingTypes options bd td hmem

/-! ## Concrete data used by the claim witnesses (the test fixtures of
`helpers.test.js`) -/

def exampleItems : List Item :=
  [[("id", .num 10001), ("otherId", .num 8001), ("name", .str "foo")],
   [("id", .num 10002), ("otherId", .num 8002), ("name", .str "bar")],
   [("id", .num 10003), ("otherId", .num 8003), ("name", .str "baz")]]

def oneItem : List Item := [[("id", JVal.num 1)]]

/-- The connection the source returns for the `default options` test
(`first: 2, after: 1` on `exampleItems`): note the base64 cursors. -/
def defaultOptionsConn : Connection :=
  { extraProps := [],
    edges := .edges
      [{ edgeProps := [], cursor := .str "VXNlcjoxMDAwMQ==",
         node := [("id", .num 10001), ("otherId", .num 8001), ("name", .str "foo")] },
       { edgeProps := [], cursor := .str "VXNlcjoxMDAwMg==",
         node := [("id", .num 10002), ("otherId", .num 8002), ("name", .str "bar")] }],
    pageInfo := { startCursor := .str "VXNlcjoxMDAwMQ==", endCursor := .str "VXNlcjoxMDAwMg==",
                  hasPreviousPage := true, hasNextPage := true } }

/-! ## Claim theorems -/

/-- C2: for every non-empty `t` without a colon and every string-or-number
`i` whose string form is non-empty and colon-free,
`decodeCursor(encodeCursor(t, i))` returns `{typeName: t, id: String(i)}`. -/
theorem c2_codec_roundtrip (t : String) (i : JVal)
    (ht : t.data ≠ []) (hi : (jvalToString i).data ≠ [])
    (hct : ':' ∉ t.data) (hci : ':' ∉ (jvalToString i).data) :
    decodeCursor (encodeCursorJ t i) = .ok ⟨t, jvalToString i⟩ :=
  decodeCursor_encodeCursor t (jvalToString i) ht hi hct hci

/-- C2 witness: the round trip at `t = "foo"`, `i = 1234` (the pair the
repository's own test uses). -/
theorem c2_codec_roundtrip_witness :
    decodeCursor (encodeCursorJ "foo" (JVal.num 1234)) =
      .ok ⟨"foo", jvalToString (JVal.num 1234)⟩ :=
  c2_codec_roundtrip "foo" (JVal.num 1234) (by decide) (by decide) (by decide) (by decide)

/-- C9: `decodeCursor` fails with `Invalid cursor provided` on
`encodeCursor("", "1")` and `encodeCursor("t", "")`, and, in general, on any
cursor whose base64-decoded text does not split on `:` into two non-empty
parts — in particular whenever the decoded text contains no colon. -/
theorem c9_invalid_cursor_rejection (t : String) :
    (decodeCursor (encodeCursor "" "1") = .error "Invalid cursor provided" ∧
      decodeCursor (encodeCursor "t" "") = .error "Invalid cursor provided") ∧
    (decodeCursor (b64EncodeAux (t.data.flatMap utf8EncodeChar)).asString =
        .error "Invalid cursor provided" ↔
      ((splitChar ':' t.data).getD 0 [] = [] ∨ (splitChar ':' t.data).getD 1 [] = [])) ∧
    (':' ∉ t.data →
      decodeCursor (b64EncodeAux (t.data.flatMap utf8EncodeChar)).asString =
        .error "Invalid cursor provided") := by
  have hiff : decodeCursor (b64EncodeAux (t.data.flatMap utf8EncodeChar)).asString =
        .error "Invalid cursor provided" ↔
      ((splitChar ':' t.data).getD 0 [] = [] ∨ (splitChar ':' t.data).getD 1 [] = []) := by
    rw [decodeCursor_encodeText]
    simp only [decodeText]
    split
    · rename_i hc
      exact iff_of_true rfl hc
    · rename_i hc
      exact iff_of_false (by simp) hc
  refine ⟨⟨?_, ?_⟩, hiff, fun hc => ?_⟩
  · exact (decodeCursor_encodeText (("" ++ ":" ++ "1" : String)).data).trans rfl
  · exact (decodeCursor_encodeText (("t" ++ ":" ++ "" : String)).data).trans rfl
  rw [hiff, splitChar_no_sep ':' t.data hc]
  right
  rfl

/-- C9 witness: a cursor whose decoded text is `foo` (no colon) is
rejected. -/
theorem c9_invalid_cursor_rejection_witness :
    decodeCursor (b64EncodeAux (("foo" : String).data.flatMap utf8EncodeChar)).asString =
      .error "Invalid cursor provided" :=
  (c9_invalid_cursor_rejection "foo").2.2 (by decide)

/-- C1 counterexample: with default options on the test items of
`helpers.test.js`, the first cursor is the base64 string
`VXNlcjoxMDAwMQ==` (the encoding of `User:10001`), not the raw id
`10001` the claim states. -/
theorem c1_counterexample :
    connectionFromArray "User" exampleItems (some 2) (JVal.num 1) {} none none =
        .ok defaultOptionsConn ∧
      defaultOptionsConn.pageInfo.startCursor ≠ JVal.num 10001 ∧
      defaultOptionsConn.pageInfo.startCursor = .str "VXNlcjoxMDAwMQ==" :=
  ⟨rfl, by decide, rfl⟩

/-- C1 (amended): with a property-name `cursorPropOrFn` and the default
`encodeCursor = true` (and no `edgeProps` relocation), each edge's cursor is
`encodeCursor(baseType, String(item[prop]))` — the base64 of
`baseType:value` — not the raw property value; with default options the
example's cursors and `startCursor`/`endCursor` are `VXNlcjoxMDAwMQ==` and
`VXNlcjoxMDAwMg==`. -/
theorem c1_cursors_encoded (baseType p : String) (items : List Item) (first : Option Int)
    (after : JVal) (cfg : Config) (pip : Option PageInfoPartial)
    (cp : Option (List (String × JVal))) (conn : Connection)
    (hmode : cfg.paginationMode = .edges) (hprop : cfg.cursorPropOrFn = .prop p)
    (henc : cfg.encodeCursor = true) (heps : cfg.edgeProps = none)
    (h : connectionFromArray baseType items first after cfg pip cp = .ok conn) :
    (∃ es, conn.edges = .edges es ∧
        es.map Edge.cursor = (jsSlice items first).map
          (fun it => JVal.str (encodeCursor baseType (jvalToString (getProp it p))))) ∧
      connectionFromArray "User" exampleItems (some 2) (JVal.num 1) {} none none =
        .ok defaultOptionsConn := by
  have hneg := connectionFromArray_ok_not_neg _ _ _ _ _ _ _ _ h
  refine ⟨?_, rfl⟩
  cases hslice : jsSlice items first with
  | nil =>
    exfalso
    unfold connectionFromArray at h
    rw [hneg] at h
    simp only [Bool.false_eq_true, if_false] at h
    unfold connectionBody at h
    rw [hmode, hslice] at h
    exact absurd h (by simp)
  | cons v vs =>
    have hok := connectionFromArray_edges_ok baseType items first after cfg pip cp v vs
      hmode hneg hslice
    have hc := h.symm.trans hok
    injection hc with hc
    subst hc
    refine ⟨mkEdge baseType cfg v :: vs.map (mkEdge baseType cfg), rfl, ?_⟩
    have hcur : ∀ it : Item, (mkEdge baseType cfg it).cursor =
        .str (encodeCursor baseType (jvalToString (getProp it p))) := by
      intro it
      unfold mkEdge
      rw [heps]
      show getCursorVal baseType cfg it = _
      unfold getCursorVal
      rw [hprop]
      show (if cfg.encodeCursor then
          JVal.str (encodeCursor baseType (jvalToString (getProp it p)))
        else getProp it p) = _
      rw [henc, if_pos rfl]
    simp [List.map_cons, List.map_map, hcur, Function.comp]

/-- C1 witness: the amended law instantiated at the repository's own
`default options` test input. -/
theorem c1_cursors_encoded_witness :
    (∃ es, defaultOptionsConn.edges = .edges es ∧
        es.map Edge.cursor = (jsSlice exampleItems (some 2)).map
          (fun it => JVal.str (encodeCursor "User" (jvalToString (getProp it "id"))))) ∧
      connectionFromArray "User" exampleItems (some 2) (JVal.num 1) {} none none =
        .ok defaultOptionsConn :=
  c1_cursors_encoded "User" "id" exampleItems (some 2) (JVal.num 1) {} none none
    defaultOptionsConn rfl rfl rfl rfl rfl

/-- C5: on every successful call, `hasPreviousPage` is the override if one is
supplied, else the truthiness of `after`; `hasNextPage` is the override if
supplied, else whether the slice length is at least `first` (under JavaScript
comparison, which is false for an absent `first`). -/
theorem c5_pageinfo_inference (baseType : String) (items : List Item) (first : Option Int)
    (after : JVal) (cfg : Config) (pip : Option PageInfoPartial)
    (cp : Option (List (String × JVal))) (conn : Connection)
    (h : connectionFromArray baseType items first after cfg pip cp = .ok conn) :
    conn.pageInfo.hasPreviousPage =
        (pip.bind PageInfoPartial.hasPreviousPage).getD (jsTruthy after) ∧
      conn.pageInfo.hasNextPage =
        (pip.bind PageInfoPartial.hasNextPage).getD
          (jsGe (jsSlice items first).length first) := by
  have h1 := connectionFromArray_ok_pageInfo _ _ _ _ _ _ _ _ h
  rw [jsGe_slice items first (connectionFromArray_ok_not_neg _ _ _ _ _ _ _ _ h)]
  exact h1

/-- The connection for `first = 2, after = 5` on a one-item list. -/
def c5Conn : Connection :=
  { extraProps := [],
    edges := .edges [{ edgeProps := [], cursor := .str "VDox", node := [("id", .num 1)] }],
    pageInfo := { startCursor := .str "VDox", endCursor := .str "VDox",
                  hasPreviousPage := true, hasNextPage := false } }

/-- C5 witness: no override, truthy `after`, one item against `first = 2`. -/
theorem c5_pageinfo_inference_witness :
    c5Conn.pageInfo.hasPreviousPage =
        ((none : Option PageInfoPartial).bind PageInfoPartial.hasPreviousPage).getD
          (jsTruthy (JVal.num 5)) ∧
      c5Conn.pageInfo.hasNextPage =
        ((none : Option PageInfoPartial).bind PageInfoPartial.hasNextPage).getD
          (jsGe (jsSlice oneItem (some 2)).length (some 2)) :=
  c5_pageinfo_inference "T" oneItem (some 2) (JVal.num 5) {} none none c5Conn rfl

/-- C10 counterexample: a simple-mode call on an empty list with the default
(property-name) cursor configuration throws a `TypeError` — it does not
return a connection with undefined cursors. -/
theorem c10_counterexample :
    connectionFromArray "User" [] (some 2) JVal.undefined
        { paginationMode := .simple } none none = .error typeErrorMsg := rfl

/-- C10 (amended): a simple-mode call whose computed slice is empty throws a
`TypeError` (reading the cursor property of `undefined`) whenever
`cursorPropOrFn` is a property name — including the default `id`; only a
function-valued `cursorPropOrFn` yields a connection, whose
`startCursor`/`endCursor` are the function's value at `undefined`. -/
theorem c10_empty_slice (baseType : String) (items : List Item) (first : Option Int)
    (after : JVal) (cfg : Config) (pip : Option PageInfoPartial)
    (cp : Option (List (String × JVal)))
    (hmode : cfg.paginationMode = .simple) (hneg : firstNeg first = false)
    (hslice : jsSlice items first = []) :
    (∀ p, cfg.cursorPropOrFn = .prop p →
        connectionFromArray baseType items first after cfg pip cp = .error typeErrorMsg) ∧
      (∀ f, cfg.cursorPropOrFn = .fn f →
        connectionFromArray baseType items first after cfg pip cp =
          .ok { extraProps := cp.getD [], edges := .simple [],
                pageInfo :=
                  { startCursor := f baseType none, endCursor := f baseType none,
                    hasPreviousPage :=
                      (pip.bind PageInfoPartial.hasPreviousPage).getD (jsTruthy after),
                    hasNextPage :=
                      (pip.bind PageInfoPartial.hasNextPage).getD
                        (jsGe items.length first) } }) := by
  constructor
  · intro p hp
    have hsc : getCursorOpt baseType cfg (jsSlice items first).head? =
        .error typeErrorMsg := by
      rw [hslice]
      show getCursorOpt baseType cfg none = _
      simp only [getCursorOpt]
      rw [hp]
    unfold connectionFromArray
    rw [hneg]
    simp only [Bool.false_eq_true, if_false]
    unfold connectionBody
    rw [hmode, hsc]
  · intro f hf
    have hsc : getCursorOpt baseType cfg (jsSlice items first).head? =
        .ok (f baseType none) := by
      rw [hslice]
      show getCursorOpt baseType cfg none = _
      simp only [getCursorOpt]
      rw [hf]
    have hec : getCursorOpt baseType cfg (jsSlice items first).getLast? =
        .ok (f baseType none) := by
      rw [hslice]
      show getCursorOpt baseType cfg none = _
      simp only [getCursorOpt]
      rw [hf]
    rw [connectionFromArray_simple_ok baseType items first after cfg pip cp _ _
      hmode hneg hsc hec, hslice]

/-- C10 witness: `first = 0` (an empty computed slice on a non-empty list)
throws the `TypeError` under the default property-name cursor. -/
theorem c10_empty_slice_witness :
    connectionFromArray "User" exampleItems (some 0) JVal.undefined
        { paginationMode := .simple } none none = .error typeErrorMsg :=
  (c10_empty_slice "User" exampleItems (some 0) JVal.undefined
      { paginationMode := .simple } none none rfl rfl rfl).1 "id" rfl

/-- C3 counterexample: a resolver result of `null` passes the
`typeof res !== 'object'` check (JavaScript's `typeof null` is `'object'`),
so the wrapper does not fail with the claimed message — destructuring `null`
throws a `TypeError` instead. -/
theorem c3_counterexample :
    wrappedResolve "User" "User" none none JVal.undefined .nullVal ≠ .error connMsg ∧
      wrappedResolve "User" "User" none none JVal.undefined .nullVal = .error typeErrorMsg :=
  ⟨by decide, rfl⟩

/-- C3 (amended): a string, number or boolean resolver result fails with
`Connection responses must be an array or object`; arrays and non-null
objects never produce that message; `null` slips past the typeof check and
fails later with a `TypeError` while being destructured. -/
theorem c3_nonobject_rejection (baseType pfx : String) (opts : Option Config)
    (first : Option Int) (after : JVal) (res : ResolverResult) :
    ((∃ s, res = .str s) ∨ (∃ n, res = .num n) ∨ (∃ bv, res = .boolean bv) →
        wrappedResolve baseType pfx opts first after res = .error connMsg) ∧
      (∀ items, res = .arr items →
        wrappedResolve baseType pfx opts first after res ≠ .error connMsg) ∧
      (∀ ev piv ex, res = .obj ev piv ex →
        wrappedResolve baseType pfx opts first after res ≠ .error connMsg) ∧
      (res = .nullVal →
        wrappedResolve baseType pfx opts first after res = .error typeErrorMsg) := by
  refine ⟨?_, ?_, ?_, ?_⟩
  · rintro (⟨s, rfl⟩ | ⟨n, rfl⟩ | ⟨bv, rfl⟩) <;> rfl
  · rintro items rfl h
    have h1 : connectionFromArray baseType items first after
        ((opts.map (narrowEdgeProps pfx)).getD {}) none none = .error connMsg := h
    exact connectionFromArray_ne_connMsg _ _ _ _ _ _ _ h1
  · rintro ev piv ex rfl h
    cases ev with
    | none =>
      have h1 : (Except.error typeErrorMsg : Except String Connection) = .error connMsg := h
      exact absurd h1 (by decide)
    | some items =>
      have h1 : connectionFromArray baseType items first after
          ((opts.map (narrowEdgeProps pfx)).getD {}) piv (some ex) = .error connMsg := h
      exact connectionFromArray_ne_connMsg _ _ _ _ _ _ _ h1
  · rintro rfl
    rfl

/-- C3 witness: a string result is rejected with the message. -/
theorem c3_nonobject_rejection_witness :
    wrappedResolve "User" "User" none none JVal.undefined (.str "oops") = .error connMsg :=
  (c3_nonobject_rejection "User" "User" none none JVal.undefined (.str "oops")).1
    (Or.inl ⟨"oops", rfl⟩)

/-- C6: for a base type configured with simple pagination mode, the
transformer pushes no Edge definition and every definition it does push for
that binding is the Connection whose `edges` element type is the base node
type; at resolve time the simple branch returns the raw sliced items
unchanged while the `pageInfo` cursors still come from `getCursor` on the
first/last sliced item. -/
theorem c6_simple_mode (existingTypes : List String) (options : List (String × Config))
    (b : Binding) (cfg : Config) (td : TypeDef) (baseType : String) (items : List Item)
    (first : Option Int) (after : JVal) (pip : Option PageInfoPartial)
    (cp : Option (List (String × JVal))) (conn : Connection)
    (hopt : typeOptionsFor options b.typeName = some cfg)
    (hmode : cfg.paginationMode = .simple)
    (htd : td ∈ synthBinding existingTypes options b)
    (hconn : connectionFromArray baseType items first after cfg pip cp = .ok conn) :
    (edgeDefsFor existingTypes (typeOptionsFor options b.typeName) b = [] ∧
        td.name = b.pfx ++ "Connection" ∧
        td.fields.head? = some ("edges", "[" ++ b.typeName ++ "!]!")) ∧
      (conn.edges = .simple (jsSlice items first) ∧
        getCursorOpt baseType cfg (jsSlice items first).head? =
          .ok conn.pageInfo.startCursor ∧
        getCursorOpt baseType cfg (jsSlice items first).getLast? =
          .ok conn.pageInfo.endCursor) := by
  have hsimp : isSimpleOpt (typeOptionsFor options b.typeName) := by
    unfold isSimpleOpt
    rw [hopt]
    simp [hmode]
  have hedge : edgeDefsFor existingTypes (typeOptionsFor options b.typeName) b = [] := by
    unfold edgeDefsFor
    rw [if_pos hsimp]
  constructor
  · refine ⟨hedge, ?_⟩
    unfold synthBinding at htd
    rw [hedge, List.nil_append] at htd
    unfold connDefsFor at htd
    split at htd
    · simp at htd
    · rw [List.mem_singleton] at htd
      subst htd
      refine ⟨rfl, ?_⟩
      show some ("edges", "[" ++ edgeNameFor (typeOptionsFor options b.typeName) b ++ "!]!") = _
      unfold edgeNameFor
      rw [if_pos hsimp]
  · have hneg := connectionFromArray_ok_not_neg _ _ _ _ _ _ _ _ hconn
    cases hsc : getCursorOpt baseType cfg (jsSlice items first).head? with
    | error e =>
      exfalso
      unfold connectionFromArray at hconn
      rw [hneg] at hconn
      simp only [Bool.false_eq_true, if_false] at hconn
      unfold connectionBody at hconn
      rw [hmode, hsc] at hconn
      exact absurd hconn (by simp)
    | ok sc =>
      cases hec : getCursorOpt baseType cfg (jsSlice items first).getLast? with
      | error e =>
        exfalso
        unfold connectionFromArray at hconn
        rw [hneg] at hconn
        simp only [Bool.false_eq_true, if_false] at hconn
        unfold connectionBody at hconn
        rw [hmode, hsc, hec] at hconn
        exact absurd hconn (by simp)
      | ok ec =>
        have hok := connectionFromArray_simple_ok baseType items first after cfg pip cp
          sc ec hmode hneg hsc hec
        have hc := hconn.symm.trans hok
        injection hc with hc
        subst hc
        exact ⟨rfl, rfl, rfl⟩

def c6Options : List (String × Config) := [("Person", { paginationMode := .simple })]

def personConnDef : TypeDef :=
  { name := "PersonConnection", fields := [("edges", "[Person!]!"), ("pageInfo", "PageInfo!")] }

/-- The connection for a simple-mode call on a one-item list. -/
def c6Conn : Connection :=
  { extraProps := [],
    edges := .simple [[("id", .num 1)]],
    pageInfo := { startCursor := .str "UGVyc29uOjE=", endCursor := .str "UGVyc29uOjE=",
                  hasPreviousPage := false, hasNextPage := true } }

/-- C6 witness: a simple-mode `Person` binding synthesizes only
`PersonConnection` with `edges: [Person!]!`, and a simple-mode resolve
returns the raw items. -/
theorem c6_simple_mode_witness :
    (edgeDefsFor ["PageInfo"] (typeOptionsFor c6Options "Person") ⟨"Person", "Person"⟩ = [] ∧
        personConnDef.name = "Person" ++ "Connection" ∧
        personConnDef.fields.head? = some ("edges", "[" ++ "Person" ++ "!]!")) ∧
      (c6Conn.edges = .simple (jsSlice oneItem (some 1)) ∧
        getCursorOpt "Person" { paginationMode := .simple }
            (jsSlice oneItem (some 1)).head? = .ok c6Conn.pageInfo.startCursor ∧
        getCursorOpt "Person" { paginationMode := .simple }
            (jsSlice oneItem (some 1)).getLast? = .ok c6Conn.pageInfo.endCursor) :=
  c6_simple_mode ["PageInfo"] c6Options ⟨"Person", "Person"⟩ { paginationMode := .simple }
    personConnDef "Person" oneItem (some 1) JVal.undefined none none c6Conn rfl rfl
    (by decide) rfl

/-- C7: every type definition the transformer synthesizes bears a name that
is not among the pre-existing type names — a user-declared `PageInfo`,
`${prefix}Connection` or `${prefix}Edge` is never redefined — and for a
binding whose Edge and Connection names both already exist, synthesis is
skipped entirely. -/
theorem c7_existing_types_win (existingTypes : List String) (bindings : List Binding)
    (options : List (String × Config)) (td : TypeDef) (b : Binding)
    (h : td ∈ synthesizeTypes existingTypes bindings options)
    (hE : b.pfx ++ "Edge" ∈ existingTypes) (hC : b.pfx ++ "Connection" ∈ existingTypes) :
    td.name ∉ existingTypes ∧ synthBinding existingTypes options b = [] := by
  refine ⟨synthesizeTypes_not_existing _ _ _ _ h, ?_⟩
  unfold synthBinding connDefsFor
  rw [if_pos hC, List.append_nil]
  simp [edgeDefsFor, hE]

def barEdgeDef : TypeDef :=
  { name := "BarEdge", fields := [("cursor", "ID!"), ("node", "Bar")] }

/-- C7 witness: with `PageInfo`, `FooEdge` and `FooConnection` already
declared, the `Foo` binding synthesizes nothing, while a `Bar` binding's
`BarEdge` avoids every existing name. -/
theorem c7_existing_types_win_witness :
    barEdgeDef.name ∉ ["PageInfo", "FooEdge", "FooConnection"] ∧
      synthBinding ["PageInfo", "FooEdge", "FooConnection"]
        ([] : List (String × Config)) ⟨"Foo", "Foo"⟩ = [] :=
  c7_existing_types_win ["PageInfo", "FooEdge", "FooConnection"]
    [⟨"Foo", "Foo"⟩, ⟨"Bar", "Bar"⟩] [] barEdgeDef ⟨"Foo", "Foo"⟩
    (by decide) (by decide) (by decide)

/-- The single edge of the shadowing counterexample: the relocated `cursor`
property (item value `99`) is read and deleted, then overwritten by the
edge's own `cursor` key holding the derived encoded cursor. -/
def c8ShadowEdge : Edge :=
  { edgeProps := [], cursor := .str "VDox", node := [("id", .num 1)] }

def c8ShadowConn : Connection :=
  { extraProps := [],
    edges := .edges [c8ShadowEdge],
    pageInfo := { startCursor := .str "VDox", endCursor := .str "VDox",
                  hasPreviousPage := false, hasNextPage := true } }

/-- C8 counterexample: with `edgeProps` naming `cursor` on an item whose
`cursor` property is `99`, the program's edge does not carry `99` at its top
level — the object literal's own `cursor` key (the derived base64 cursor
`VDox`, i.e. `T:1`) shadows the spread entry, and no separate relocated
entry survives. -/
theorem c8_counterexample :
    connectionFromArray "T" [[("id", JVal.num 1), ("cursor", JVal.num 99)]] (some 1)
        JVal.undefined { edgeProps := some [("cursor", ExtraPropVal.typeStr "ID")] }
        none none = .ok c8ShadowConn ∧
      getProp [("id", JVal.num 1), ("cursor", JVal.num 99)] "cursor" = JVal.num 99 ∧
      lookupProp c8ShadowEdge.edgeProps "cursor" = none ∧
      c8ShadowEdge.cursor = .str "VDox" ∧
      c8ShadowEdge.cursor ≠ JVal.num 99 :=
  ⟨rfl, rfl, rfl, rfl, by decide⟩

/-- C8 (amended): in edges mode with configured `edgeProps`, every edge's
`node` no longer contains any named property (each is read and then deleted
from the item), and each named property other than `cursor` and `node`
appears at the edge's top level with that item's value — a relocated
property named `cursor` or `node` is shadowed by the edge's own
`cursor`/`node` keys, so its value does not survive on the edge. -/
theorem c8_edge_prop_relocation (baseType : String) (items : List Item) (first : Option Int)
    (after : JVal) (cfg : Config) (pip : Option PageInfoPartial)
    (cp : Option (List (String × JVal))) (conn : Connection)
    (eps : List (String × ExtraPropVal))
    (hmode : cfg.paginationMode = .edges) (heps : cfg.edgeProps = some eps)
    (hnd : (eps.map (fun q => q.1)).Nodup)
    (h : connectionFromArray baseType items first after cfg pip cp = .ok conn) :
    ∃ es, conn.edges = .edges es ∧
      List.Forall₂ (fun it e =>
          ∀ k ∈ eps.map (fun q => q.1),
            getProp e.node k = .undefined ∧
            (k ≠ "cursor" → k ≠ "node" →
              lookupProp e.edgeProps k = some (getProp it k)))
        (jsSlice items first) es := by
  have hneg := connectionFromArray_ok_not_neg _ _ _ _ _ _ _ _ h
  cases hslice : jsSlice items first with
  | nil =>
    exfalso
    unfold connectionFromArray at h
    rw [hneg] at h
    simp only [Bool.false_eq_true, if_false] at h
    unfold connectionBody at h
    rw [hmode, hslice] at h
    exact absurd h (by simp)
  | cons v vs =>
    have hok := connectionFromArray_edges_ok baseType items first after cfg pip cp v vs
      hmode hneg hslice
    have hc := h.symm.trans hok
    injection hc with hc
    subst hc
    refine ⟨mkEdge baseType cfg v :: vs.map (mkEdge baseType cfg), rfl, ?_⟩
    rw [show mkEdge baseType cfg v :: vs.map (mkEdge baseType cfg) =
      (v :: vs).map (mkEdge baseType cfg) from rfl]
    rw [List.forall₂_map_right_iff, List.forall₂_same]
    intro it hit k hk
    unfold mkEdge
    rw [heps]
    show getProp (getEdgeProps (eps.map (fun q => q.1)) it).2 k = .undefined ∧
      (k ≠ "cursor" → k ≠ "node" →
        lookupProp ((getEdgeProps (eps.map (fun q => q.1)) it).1.filter
          (fun q => q.1 != "cursor" && q.1 != "node")) k = some (getProp it k))
    refine ⟨getEdgeProps_snd_mem _ _ _ hk, fun hkc hkn => ?_⟩
    rw [lookupProp_filter_keys _ _ hkc hkn]
    exact getEdgeProps_fst_lookup _ _ _ hnd hk

def c8Config : Config := { edgeProps := some [("otherId", .typeStr "Int")] }

/-- The connection the `edge props` test expects: `otherId` moved onto each
edge, `node` without it. -/
def c8Conn : Connection :=
  { extraProps := [],
    edges := .edges
      [{ edgeProps := [("otherId", .num 8001)], cursor := .str "VXNlcjoxMDAwMQ==",
         node := [("id", .num 10001), ("name", .str "foo")] },
       { edgeProps := [("otherId", .num 8002)], cursor := .str "VXNlcjoxMDAwMg==",
         node := [("id", .num 10002), ("name", .str "bar")] }],
    pageInfo := { startCursor := .str "VXNlcjoxMDAwMQ==", endCursor := .str "VXNlcjoxMDAwMg==",
                  hasPreviousPage := true, hasNextPage := true } }

/-- C8 witness: the amended relocation law at the repository's own
`edge props` test input (`otherId`, which is neither `cursor` nor `node`,
is carried with the item's value and stripped from the node). -/
theorem c8_edge_prop_relocation_witness :
    ∃ es, c8Conn.edges = .edges es ∧
      List.Forall₂ (fun it e =>
          ∀ k ∈ [("otherId", ExtraPropVal.typeStr "Int")].map
              (fun q : String × ExtraPropVal => q.1),
            getProp e.node k = .undefined ∧
            (k ≠ "cursor" → k ≠ "node" →
              lookupProp e.edgeProps k = some (getProp it k)))
        (jsSlice exampleItems (some 2)) es :=
  c8_edge_prop_relocation "User" exampleItems (some 2) (JVal.num 1) c8Config none none
    c8Conn [("otherId", .typeStr "Int")] rfl rfl (by decide) rfl
end RelayPagination
